import Mathlib

/-!
Verification of the mcp-darktable host against its specification.

The Python source under `src/host/` is shallowly embedded below.  Python
values flowing through JSON are modelled by `PyVal`; Python exceptions by
`PyExc`; the stdio JSON-RPC transport (`McpClient` in `src/host/common.py`)
by pure state-passing functions; the concurrent vision pipeline
(`prepare_vision_payloads_async`) by an explicit per-item result list whose
completion order is quantified over.  File contents, image decoding and the
LLM endpoint are external effects: they enter the model as explicit inputs
(a `FileState` map, a chat answer, a parse outcome), exactly where the
Python code receives them from the outside world.
-/

/-- A Python/JSON value as it appears in the host code: strings, integers,
booleans, `None`, lists and (insertion-ordered) dicts with string keys. -/
inductive PyVal where
  | str : String → PyVal
  | int : Int → PyVal
  | bool : Bool → PyVal
  | pynone : PyVal
  | list : List PyVal → PyVal
  | dict : List (String × PyVal) → PyVal

/-- Python exceptions raised by the embedded code.  `runtimeError` carries
the constructor argument (`RuntimeError(resp["error"])` receives the raw
payload, `RuntimeError(f"...")` a string). -/
inductive PyExc where
  | timeoutError (msg : String)
  | runtimeError (payload : PyVal)
  | fileNotFoundError (path : String)
  | osError (msg : String)
  | nameError (name : String)
  | typeError (msg : String)
  | keyError (key : String)
  | valueError (msg : String)

/-- `d.get(k)` on a Python dict modelled as an insertion-ordered
association list (first binding wins; literals have unique keys). -/
def dictGet (kvs : List (String × PyVal)) (k : String) : Option PyVal :=
  match kvs with
  | [] => Option.none
  | (k1, v) :: rest => if k1 = k then some v else dictGet rest k

/-- `d[k] = v`: overwrite an existing binding in place, else append
(Python dicts keep insertion order). -/
def dictSet (kvs : List (String × PyVal)) (k : String) (v : PyVal) :
    List (String × PyVal) :=
  match kvs with
  | [] => [(k, v)]
  | (k1, v1) :: rest =>
      if k1 = k then (k1, v) :: rest else (k1, v1) :: dictSet rest k v

/-- `d.get(k, default)`. -/
def pyGetD (d : PyVal) (k : String) (default : PyVal) : PyVal :=
  match d with
  | .dict kvs =>
      match dictGet kvs k with
      | some v => v
      | Option.none => default
  | _ => default

/-- Python truthiness of the embedded values. -/
def pyTruthy : PyVal → Bool
  | .str s => !(s == "")
  | .int n => !(n == 0)
  | .bool b => b
  | .pynone => false
  | .list xs => !xs.isEmpty
  | .dict kvs => !kvs.isEmpty

mutual
/-- Python `str()` of a value.  Strings render bare, numbers and `None` as
Python prints them; containers render through `repr` as Python does
(character escaping inside reprs is elided, it is never examined here). -/
def pyStr : PyVal → String
  | .str s => s
  | .int n => toString n
  | .bool true => "True"
  | .bool false => "False"
  | .pynone => "None"
  | .list xs => "[" ++ pyReprList xs ++ "]"
  | .dict kvs => "\x7b" ++ pyReprKvs kvs ++ "\x7d"

/-- Python `repr()` of a value. -/
def pyRepr : PyVal → String
  | .str s => "\x27" ++ s ++ "\x27"
  | .int n => toString n
  | .bool true => "True"
  | .bool false => "False"
  | .pynone => "None"
  | .list xs => "[" ++ pyReprList xs ++ "]"
  | .dict kvs => "\x7b" ++ pyReprKvs kvs ++ "\x7d"

/-- Comma-separated reprs of list elements. -/
def pyReprList : List PyVal → String
  | [] => ""
  | [x] => pyRepr x
  | x :: y :: rest => pyRepr x ++ ", " ++ pyReprList (y :: rest)

/-- Comma-separated reprs of dict items. -/
def pyReprKvs : List (String × PyVal) → String
  | [] => ""
  | [(k, v)] => "\x27" ++ k ++ "\x27: " ++ pyRepr v
  | (k, v) :: p :: rest =>
      "\x27" ++ k ++ "\x27: " ++ pyRepr v ++ ", " ++ pyReprKvs (p :: rest)
end

/-- `sep.join(xs)` (Python `str.join`). -/
def pyJoin (sep : String) : List String → String
  | [] => ""
  | [x] => x
  | x :: y :: rest => x ++ sep ++ pyJoin sep (y :: rest)

/-- Python `str.strip()`: drop leading and trailing whitespace (the embedding
uses `Char.isWhitespace`, which covers the characters the host emits). -/
def pyStrip (s : String) : String :=
  String.mk (((s.data.dropWhile Char.isWhitespace).reverse.dropWhile
      Char.isWhitespace).reverse)

/-- Decide whether `needle` occurs contiguously inside `hay`
(Python `needle in hay` on strings, at character-list level). -/
def subList (needle : List Char) : List Char → Bool
  | [] => needle.isPrefixOf []
  | c :: t => needle.isPrefixOf (c :: t) || subList needle t

/-- String-level substring test. -/
def strContains (hay needle : String) : Bool :=
  subList needle.data hay.data

/-! ## The stdio JSON-RPC transport (`McpClient`, `src/host/common.py`)

`McpClient.request` writes one JSON line to the worker, waits on the
worker's stdout with `select` bounded by `response_timeout`, reads one
line, and interprets it.  The embedding passes the observable state of the
worker's pipes explicitly: whether `select` reported stdout ready, what
`readline` returned (already parsed, since `json.loads` of a well-formed
reply is abstracted to the value itself; `Option.none` is EOF, which
Python reads as the falsy empty string), and the lines immediately
available on stderr (as returned by `readline`, terminators included). -/

/-- Mutable counter state of a `McpClient` instance that `request` touches.
The constructor also sets `request_id = 0` and `_next_req_id = 1`, but both
are dead fields: only `msg_id` (initially `0`) is ever read. -/
structure ClientState where
  msgId : Nat

/-- A freshly constructed client (`self.msg_id = 0`). -/
def freshClient : ClientState := { msgId := 0 }

/-- `McpClient._next_id`: increment `msg_id` and return `str(self.msg_id)`. -/
def next_id (st : ClientState) : String × ClientState :=
  (toString (st.msgId + 1), { msgId := st.msgId + 1 })

/-- The observable state of the worker's pipes during one `request` call. -/
structure StreamSnapshot where
  stdoutReady : Bool
  stdoutLine : Option PyVal
  stderrLines : List String

/-- `params or {}` in the request body. -/
def paramsOrEmpty (params : Option PyVal) : PyVal :=
  match params with
  | some p => if pyTruthy p then p else .dict []
  | Option.none => .dict []

/-- The JSON object `request` serializes and writes to the worker's stdin. -/
def buildRequest (reqId : String) (method : String) (params : Option PyVal) :
    PyVal :=
  .dict [("jsonrpc", .str "2.0"), ("id", .str reqId),
         ("method", .str method), ("params", paramsOrEmpty params)]

/-- `McpClient._drain_stderr`: poll stderr with a zero-timeout `select`,
collect the immediately available lines, `strip()` each, and join the
results with `" | "`. -/
def drain_stderr (lines : List String) : String :=
  pyJoin " | " (lines.map pyStrip)

/-- The `" | stderr: ..."` suffix attached to transport failure messages
(empty when nothing was drained, mirroring the truthiness test on
`stderr_output`). -/
def stderrExtra (lines : List String) : String :=
  if drain_stderr lines = "" then "" else " | stderr: " ++ drain_stderr lines

/-- Message of the `TimeoutError` raised when `select` reports no data
within `response_timeout` seconds.  `timeoutRepr` is the decimal rendering
of the float `self.response_timeout` inside the f-string (floats never
enter any computation, only this message). -/
def timeoutMsg (timeoutRepr : String) (lines : List String) : String :=
  "Servidor MCP não respondeu em " ++ timeoutRepr ++ "s (timeout)" ++
    stderrExtra lines

/-- Message of the `RuntimeError` raised when `readline` returns EOF. -/
def emptyStdoutMsg (lines : List String) : String :=
  "Servidor MCP não respondeu (stdout vazio)" ++ stderrExtra lines

/-- What one call to `McpClient.request` did: the JSON object it wrote to
the worker, and either the `result` field of the reply or the exception
raised. -/
structure RequestEffect where
  sent : PyVal
  outcome : Except PyExc PyVal

/-- `resp["error"]` presence check (replies are JSON objects). -/
def respError (resp : PyVal) : Option PyVal :=
  match resp with
  | .dict kvs => dictGet kvs "error"
  | _ => Option.none

/-- `resp["result"]` (a `KeyError` if the reply lacks the field). -/
def respResult (resp : PyVal) : Except PyExc PyVal :=
  match resp with
  | .dict kvs =>
      match dictGet kvs "result" with
      | some v => .ok v
      | Option.none => .error (.keyError "result")
  | _ => .error (.typeError "reply is not an object")

/-- `McpClient.request` (src/host/common.py, lines 275-311): assign the
next id, serialize and write one line, wait on stdout bounded by the
response timeout, then read and interpret exactly one reply line. -/
def request (timeoutRepr : String) (st : ClientState) (ws : StreamSnapshot)
    (method : String) (params : Option PyVal) : ClientState × RequestEffect :=
  let (reqId, st1) := next_id st
  let req := buildRequest reqId method params
  if !ws.stdoutReady then
    (st1, { sent := req,
            outcome := .error (.timeoutError (timeoutMsg timeoutRepr
              ws.stderrLines)) })
  else
    match ws.stdoutLine with
    | Option.none =>
        (st1, { sent := req,
                outcome := .error (.runtimeError (.str (emptyStdoutMsg
                  ws.stderrLines))) })
    | some resp =>
        match respError resp with
        | some e => (st1, { sent := req, outcome := .error (.runtimeError e) })
        | Option.none => (st1, { sent := req, outcome := respResult resp })

/-! ## `McpClient.close` (src/host/common.py, lines 368-397)

`close` owns the worker process handle (`self.proc`) and the three pipe
descriptors the `Popen` call opened.  The embedding separates the client's
reference (`hasProc`) from the operating-system side of the resources so
the descriptors remain observable after the reference is dropped. -/

/-- Open/closed state of the worker's three standard streams. -/
structure WorkerStreams where
  stdinOpen : Bool
  stdoutOpen : Bool
  stderrOpen : Bool

/-- The client's process reference plus the OS-side resources it owns. -/
structure CloseWorld where
  hasProc : Bool
  streams : WorkerStreams
  procRunning : Bool

/-- The termination ladder: `terminate()`, `wait(5)`, escalating to
`kill()` (with secondary errors swallowed).  Every path ends with the
process stopped; a process that had already exited is left as is. -/
def terminateWorker (running : Bool) : Bool :=
  if running then false else running

/-- The cleanup loop `for stream in (stdin, stdout, stderr): try close`:
each descriptor is closed, exceptions during one close are swallowed and
the loop continues with the next stream. -/
def closeStreams (_s : WorkerStreams) : WorkerStreams :=
  { stdinOpen := false, stdoutOpen := false, stderrOpen := false }

/-- `McpClient.close`: early return when `self.proc` is already `None`;
otherwise terminate the process if still running, close every stream, and
drop the reference (`self.proc = None`). -/
def close (w : CloseWorld) : CloseWorld :=
  if !w.hasProc then w
  else
    { hasProc := false,
      streams := closeStreams w.streams,
      procRunning := terminateWorker w.procRunning }

/-! ## `McpClient._setup_appimage_env` (src/host/common.py, lines 149-259)

The resolver decides whether the worker ships as an AppImage, mounts it
with `<bundle> --appimage-mount`, and rewrites the subprocess environment.
The filesystem probes inside the mounted bundle and the fate of the mount
helper are external effects, passed in as `MountInfo`/`MountOutcome`. -/

/-- An environment mapping (`env` / `os.environ`). -/
def EnvMap : Type := List (String × String)

/-- Lookup with Python's `dict.get(k, "")` default. -/
def envGet (e : EnvMap) (k : String) : String :=
  match e with
  | [] => ""
  | (k1, v) :: rest => if k1 = k then v else envGet rest k

/-- `env[k] = v` preserving insertion order. -/
def envSet (e : EnvMap) (k : String) (v : String) : EnvMap :=
  match e with
  | [] => [(k, v)]
  | (k1, v1) :: rest =>
      if k1 = k then (k1, v) :: rest else (k1, v1) :: envSet rest k v

/-- What the filesystem probes against the mounted bundle reported. -/
structure MountInfo where
  mountPoint : String
  libAtUsrLib : Bool
  libAtUsrLib64 : Bool
  rglobHits : List String
  bundledLuaExists : Bool
  bundledLuajitExists : Bool
  whichLua54 : Option String

/-- How the mount attempt went: the helper (or any later step inside the
`try` block) raised, the helper produced no usable mount-point line, or the
bundle is mounted at a known point. -/
inductive MountOutcome where
  | raised (msg : String)
  | noMountLine
  | mounted (info : MountInfo)

/-- `command[0]` (commands in the program are non-empty argv lists). -/
def exeOf (command : List String) : String := command.headD ""

/-- The AppImage sniff on the executable name:
`exe.lower().endswith(".appimage") or ".appimage" in exe.lower()`. -/
def looksLikeAppImage (exe : String) : Bool :=
  ".appimage".data.isSuffixOf exe.toLower.data ||
    strContains exe.toLower ".appimage"

/-- Target selection: an explicit (truthy) `appimage_path` wins, otherwise
the executable is used when its name sniffs as an AppImage, otherwise no
bundle handling happens. -/
def detectAppImage (command : List String) (appimagePath : Option String) :
    Option String :=
  let fromExe :=
    if looksLikeAppImage (exeOf command) then some (exeOf command)
    else Option.none
  match appimagePath with
  | some p => if p = "" then fromExe else some p
  | Option.none => fromExe

/-- The library directories injected ahead of `LD_LIBRARY_PATH` ("caminhos
comuns dentro do AppImage do Darktable"). -/
def appImageLibDirs (mp : String) : List String :=
  [mp ++ "/usr/lib", mp ++ "/usr/lib/darktable",
   mp ++ "/usr/lib/x86_64-linux-gnu",
   mp ++ "/usr/lib/x86_64-linux-gnu/darktable",
   mp ++ "/usr/lib64", mp ++ "/usr/lib64/darktable"]

/-- Locating `libdarktable.so`: `usr/lib`, then `usr/lib64`, then the
first hit of a recursive `rglob` search; `Option.none` when even the deep
search finds nothing (the conventional candidate paths do not exist). -/
def findLibSo (info : MountInfo) : Option String :=
  if info.libAtUsrLib then some (info.mountPoint ++ "/usr/lib/libdarktable.so")
  else if info.libAtUsrLib64 then
    some (info.mountPoint ++ "/usr/lib64/libdarktable.so")
  else info.rglobHits.head?

/-- The augmented environment computed after a successful mount:
`(env or os.environ).copy()` with the bundle's library directories
prepended to `LD_LIBRARY_PATH`, `DARKTABLE_LIB_PATH` when the core library
was located, the bundle itself as `DARKTABLE_CLI_CMD`, and the
`DT_MCP_LD_REEXEC` re-exec guard.  (`lua_paths` is computed by the source
but its use is commented out, so it is omitted.) -/
def mountedEnv (env : Option EnvMap) (osEnviron : EnvMap) (target : String)
    (info : MountInfo) : EnvMap :=
  let newEnv : EnvMap :=
    match env with
    | some e => if e.isEmpty then osEnviron else e
    | Option.none => osEnviron
  let currentLd := envGet newEnv "LD_LIBRARY_PATH"
  let extraLd := pyJoin ":" (appImageLibDirs info.mountPoint)
  let e1 := envSet newEnv "LD_LIBRARY_PATH" (extraLd ++ ":" ++ currentLd)
  let e2 :=
    match findLibSo info with
    | some p => envSet e1 "DARKTABLE_LIB_PATH" p
    | Option.none => e1
  let e3 := envSet e2 "DARKTABLE_CLI_CMD" target
  envSet e3 "DT_MCP_LD_REEXEC" "1"

/-- The "CHECK FOR BUNDLED LUA" rewrite of `command[0]` when the original
command invokes `lua`: prefer a Lua bundled in the AppImage (`usr/bin/lua`
or `usr/bin/luajit`), else a system `lua5.4` for ABI compatibility, else
leave the command alone. -/
def rewrittenCommand (command : List String) (info : MountInfo) :
    List String :=
  match command with
  | "lua" :: rest =>
      if info.bundledLuaExists then
        (info.mountPoint ++ "/usr/bin/lua") :: rest
      else if info.bundledLuajitExists then
        (info.mountPoint ++ "/usr/bin/luajit") :: rest
      else
        match info.whichLua54 with
        | some p => p :: rest
        | Option.none => "lua" :: rest
  | c => c

/-- What `_setup_appimage_env` left behind: `self.env`, the possibly
rewritten `self.command`, and the mount bookkeeping
(`self._appimage_proc` tracked or not, `self._appimage_mount`). -/
structure SetupResult where
  env : Option EnvMap
  command : List String
  appimageProcActive : Bool
  appimageMount : Option String

/-- `McpClient._setup_appimage_env`.  No bundle detected: keep the caller
environment.  Helper raised anywhere inside the `try`: the handler prints,
runs `_cleanup_appimage` (terminating the helper) and control falls
through to `self.env = env`.  Helper produced no mount-point line: the
`if mount_point:` guard fails and control likewise falls through to
`self.env = env` (the helper stays running but untracked).  Mounted:
install the augmented environment and the rewritten command. -/
def setup_appimage_env (command : List String) (env : Option EnvMap)
    (appimagePath : Option String) (osEnviron : EnvMap)
    (mount : MountOutcome) : SetupResult :=
  match detectAppImage command appimagePath with
  | Option.none =>
      { env := env, command := command, appimageProcActive := false,
        appimageMount := Option.none }
  | some target =>
      match mount with
      | .raised _ =>
          { env := env, command := command, appimageProcActive := false,
            appimageMount := Option.none }
      | .noMountLine =>
          { env := env, command := command, appimageProcActive := true,
            appimageMount := Option.none }
      | .mounted info =>
          { env := some (mountedEnv env osEnviron target info),
            command := rewrittenCommand command info,
            appimageProcActive := true,
            appimageMount := some info.mountPoint }

/-- Whether the mount attempt counts as a failure (helper raised, or no
mount point line was produced). -/
def mountFailed : MountOutcome → Bool
  | .raised _ => true
  | .noMountLine => true
  | .mounted _ => false

/-! ## The vision payload pipeline (src/host/common.py, lines 649-879)

`prepare_vision_payloads_async` resolves each catalog record to an on-disk
file, encodes it, and collects per-record successes and failures across a
`ThreadPoolExecutor`.  The disk is modelled as a map from resolved paths
to a `FileState`; `encode_image_to_base64`'s mimetype/Pillow/base64 work
is abstracted into the file's state (what the encoding of that file
yields, or which exception reading it raises), which is exactly the
granularity the ordering and error-handling claims quantify over. -/

/-- External state of one resolved path: the file is absent
(`Image.open`/`read_bytes` raise `FileNotFoundError`), present but
unreadable (`OSError`), or encodes — via Pillow or the raw-bytes fallback
— to the given base64 string and data URL. -/
inductive FileState where
  | missing
  | unreadable (msg : String)
  | readable (b64 : String) (dataUrl : String)
deriving DecidableEq

/-- The disk, as the pipeline observes it. -/
def FS : Type := String → FileState

/-- `encode_image_to_base64`: returns `(b64, data_url)` for a readable
file and propagates `FileNotFoundError`/`OSError` otherwise. -/
def encode_image_to_base64 (fs : FS) (image_path : String) :
    Except PyExc (String × String) :=
  match fs image_path with
  | .missing => .error (.fileNotFoundError image_path)
  | .unreadable m => .error (.osError m)
  | .readable b64 dataUrl => .ok (b64, dataUrl)

/-- The `VisionImage` dataclass: encoded image plus its catalog record. -/
structure VisionImage where
  meta : PyVal
  path : String
  b64 : String
  data_url : String

/-- `Path(img.get("path", "")) / str(img.get("filename", ""))` (records
carry string path components; POSIX join). -/
def recordImagePath (img : PyVal) : String :=
  let dir := pyStr (pyGetD img "path" (.str ""))
  let name := pyStr (pyGetD img "filename" (.str ""))
  if dir = "" then name else dir ++ "/" ++ name

/-- The index-independent part of `process_single_image`: the payload or
the error string produced for one record (the worker's `idx` is used only
for the log line and the returned tuple). -/
def procResult (fs : FS) (img : PyVal) : Option VisionImage × Option String :=
  let image_path := recordImagePath img
  match encode_image_to_base64 fs image_path with
  | .ok (b64, data_url) =>
      (some { meta := img, path := image_path, b64 := b64,
              data_url := data_url }, Option.none)
  | .error (.fileNotFoundError _) =>
      (Option.none, some ("Arquivo não encontrado: " ++ image_path))
  | .error (.osError m) =>
      (Option.none, some ("Falha ao ler " ++ image_path ++ ": " ++ m))
  | .error _ =>
      (Option.none, some ("Erro inesperado processando " ++ image_path))

/-- `process_single_image(idx, img)`: `(idx, VisionImage | None,
error | None)`. -/
def process_single_image (fs : FS) (idx : Nat) (img : PyVal) :
    Nat × Option VisionImage × Option String :=
  (idx, procResult fs img)

/-- `enumerate(images_list, 1)` paired with `process_single_image`: the
result set the futures deliver, in submission order. -/
def canonicalResults (fs : FS) (k : Nat) :
    List PyVal → List (Nat × Option VisionImage × Option String)
  | [] => []
  | img :: rest =>
      process_single_image fs k img :: canonicalResults fs (k + 1) rest

/-- Insert into a key-sorted list (the order `sorted(results.keys())`
establishes; keys are the distinct submission indices). -/
def insertByKey (x : Nat × Option VisionImage × Option String) :
    List (Nat × Option VisionImage × Option String) →
    List (Nat × Option VisionImage × Option String)
  | [] => [x]
  | y :: ys => if x.1 ≤ y.1 then x :: y :: ys else y :: insertByKey x ys

/-- Sort the completed results by submission index.  The Python code
stores each `(idx, payload, error)` in a dict keyed by `idx` and then
walks `sorted(results.keys())`; with distinct keys that walk is exactly a
sort of the completion-ordered list. -/
def sortByKey :
    List (Nat × Option VisionImage × Option String) →
    List (Nat × Option VisionImage × Option String)
  | [] => []
  | x :: xs => insertByKey x (sortByKey xs)

/-- The reconstruction loop `for idx in sorted(results.keys())`: append
the error when one was recorded, else append the payload when one was
produced. -/
def gatherLoop (acc : List VisionImage × List String) :
    List (Nat × Option VisionImage × Option String) →
    List VisionImage × List String
  | [] => acc
  | (_, payload, err) :: rest =>
      match err with
      | some e => gatherLoop (acc.1, acc.2 ++ [e]) rest
      | Option.none =>
          match payload with
          | some p => gatherLoop (acc.1 ++ [p], acc.2) rest
          | Option.none => gatherLoop acc rest

/-- `prepare_vision_payloads_async(images, attach_images, progress_callback,
max_workers)`.  `completed` is the list of per-record results in the order
`as_completed` delivered them — the only trace the worker pool's
scheduling leaves on the output; `max_workers` bounds the pool and the
progress callback only reports counts, so neither appears in the result.
Claims quantify over every `completed` that is a permutation of the
submitted work. -/
def prepare_vision_payloads_async (images : List PyVal)
    (attach_images : Bool)
    (completed : List (Nat × Option VisionImage × Option String)) :
    List VisionImage × List String :=
  if !attach_images then ([], [])
  else if images.isEmpty then ([], [])
  else gatherLoop ([], []) (sortByKey completed)

/-- Whether a record's file encodes successfully under the given disk. -/
def encodeOk (fs : FS) (img : PyVal) : Bool :=
  match encode_image_to_base64 fs (recordImagePath img) with
  | .ok _ => true
  | .error _ => false

/-- The in-submission-order payloads of a record list. -/
def paysOf (fs : FS) (l : List PyVal) : List VisionImage :=
  l.filterMap (fun img => (procResult fs img).1)

/-- The in-submission-order error strings of a record list. -/
def errsOf (fs : FS) (l : List PyVal) : List String :=
  l.filterMap (fun img => (procResult fs img).2)

/-! ## Message building (`build_messages`, src/host/batch_processor.py) -/

mutual
/-- `json.dumps(v, ensure_ascii=False)` (string escaping elided — the
serialized sample text is carried opaquely inside one chat message). -/
def jsonDumps : PyVal → String
  | .str s => "\"" ++ s ++ "\""
  | .int n => toString n
  | .bool true => "true"
  | .bool false => "false"
  | .pynone => "null"
  | .list xs => "[" ++ jsonDumpsList xs ++ "]"
  | .dict kvs => "\x7b" ++ jsonDumpsKvs kvs ++ "\x7d"

/-- Comma-separated dumps of array elements. -/
def jsonDumpsList : List PyVal → String
  | [] => ""
  | [x] => jsonDumps x
  | x :: y :: rest => jsonDumps x ++ ", " ++ jsonDumpsList (y :: rest)

/-- Comma-separated dumps of object members. -/
def jsonDumpsKvs : List (String × PyVal) → String
  | [] => ""
  | [(k, v)] => "\"" ++ k ++ "\": " ++ jsonDumps v
  | (k, v) :: p :: rest =>
      "\"" ++ k ++ "\": " ++ jsonDumps v ++ ", " ++ jsonDumpsKvs (p :: rest)
end

/-- `fallback_user_prompt(sample)` (src/host/common.py): the text-only user
message serializing the raw sample. -/
def fallback_user_prompt (sample : List PyVal) : String :=
  "Lista (amostra) de imagens do darktable:\n" ++ jsonDumps (.list sample)

/-- The elements of `meta.get("colorlabels", [])` as the strings
`",".join` receives (records carry lists of strings). -/
def labelsStrings : PyVal → List String
  | .list xs => xs.map pyStr
  | _ => []

/-- The per-image description line `Image ID=... Path=... Rating=...
Labels=[...]`. -/
def visionDescription (item : VisionImage) : String :=
  let colorlabels := pyJoin "," (labelsStrings (pyGetD item.meta
    "colorlabels" (.list [])))
  "Image ID=" ++ pyStr (pyGetD item.meta "id" PyVal.pynone) ++
    " Path=" ++ item.path ++
    " Rating=" ++ pyStr (pyGetD item.meta "rating" PyVal.pynone) ++
    " Labels=[" ++ colorlabels ++ "]"

/-- One user message per image.  For the `"ollama"` provider type the
message carries `images: [b64]` next to plain text (`item.b64` is always a
string in a `VisionImage`, so the `isinstance` arm taking a list is dead);
every other provider type gets the OpenAI-style content-block array. -/
def perImageMessage (provider_type : String) (item : VisionImage) : PyVal :=
  if provider_type = "ollama" then
    .dict [("role", .str "user"),
           ("content", .str (visionDescription item)),
           ("images", .list [.str item.b64])]
  else
    .dict [("role", .str "user"),
           ("content", .list
             [.dict [("type", .str "text"),
                     ("text", .str (visionDescription item))],
              .dict [("type", .str "image_url"),
                     ("image_url", .dict [("url", .str item.data_url)])]])]

/-- The system message opening every conversation. -/
def systemMessage (system_prompt : String) : PyVal :=
  .dict [("role", .str "system"), ("content", .str system_prompt)]

/-- The trailing instruction appended after the image messages. -/
def finalInstructionMessage : PyVal :=
  .dict [("role", .str "user"),
         ("content", .str
           "Retorne APENAS um JSON com o plano de ação seguindo o schema.")]

/-- `build_messages(system_prompt, sample, vision_images, provider_type)`
(src/host/batch_processor.py, lines 20-75): with no vision images, a
system message plus the text fallback; otherwise the system message, the
per-image loop (modelled as a map), and the appended final instruction. -/
def build_messages (system_prompt : String) (sample : List PyVal)
    (vision_images : List VisionImage) (provider_type : String) :
    List PyVal :=
  if vision_images.isEmpty then
    [systemMessage system_prompt,
     .dict [("role", .str "user"),
            ("content", .str (fallback_user_prompt sample))]]
  else
    systemMessage system_prompt ::
      vision_images.map (perImageMessage provider_type) ++
      [finalInstructionMessage]

/-! ## The batch orchestrator (src/host/batch_processor.py)

`BatchProcessor._process_common` and `run_mode_rating` are embedded as
pure functions over a `BatchEnv` record carrying everything the
orchestrator receives from outside: the records the worker returned, the
prompt-loader outcome, the disk, the LLM answer and metadata, and the
outcome of `json.loads(extract_json_from_markdown(answer))` (the regex
fence-stripping plus JSON parsing of the answer text, abstracted to its
result).  Tool invocations (`client.call_tool`) are collected in order. -/

/-- The argparse-style argument object the modes receive. -/
structure Args where
  source : String
  min_rating : Int
  only_raw : Bool
  path_contains : Option String
  tag : Option String
  collection : Option String
  limit : Nat
  text_only : Bool
  prompt_variant : String

/-- `fetch_images` (src/host/common.py, lines 887-915): select the list
tool and its parameters from the `source` discriminator, raising
`ValueError` for a missing mode-specific argument or an unknown source.
The returned pair is the `call_tool` invocation made; the records come
back through `result["content"][0]["json"]` (provided by `BatchEnv`). -/
def fetch_images_call (args : Args) : Except PyExc (String × PyVal) :=
  let base := [("min_rating", PyVal.int args.min_rating),
               ("only_raw", PyVal.bool args.only_raw)]
  if args.source = "all" then .ok ("list_collection", .dict base)
  else if args.source = "collection" then
    match args.collection with
    | some c =>
        if c = "" then
          .error (.valueError
            "--collection é obrigatório quando source=collection")
        else .ok ("list_collection", .dict (base ++ [("collection_path",
          PyVal.str c)]))
    | Option.none =>
        .error (.valueError "--collection é obrigatório quando source=collection")
  else if args.source = "path" then
    match args.path_contains with
    | some p =>
        if p = "" then
          .error (.valueError "--path-contains é obrigatório com --source path")
        else .ok ("list_by_path", .dict (base ++ [("path_contains",
          PyVal.str p)]))
    | Option.none =>
        .error (.valueError "--path-contains é obrigatório com --source path")
  else if args.source = "tag" then
    match args.tag with
    | some t =>
        if t = "" then .error (.valueError "--tag é obrigatório com --source tag")
        else .ok ("list_by_tag", .dict (base ++ [("tag", PyVal.str t)]))
    | Option.none => .error (.valueError "--tag é obrigatório com --source tag")
  else .error (.valueError ("source inválido: " ++ args.source))

/-- `save_log(mode, source, images, model_answer, extra)`: the JSON object
written to the per-run log file (the timestamped file name is carried by
`ts`). -/
def save_log (mode : String) (source : String) (images : List PyVal)
    (model_answer : String) (extra : Option PyVal) (ts : String) : PyVal :=
  let base := [("timestamp", PyVal.str ts), ("mode", PyVal.str mode),
               ("source", PyVal.str source),
               ("images_sample", PyVal.list images),
               ("model_answer", PyVal.str model_answer)]
  match extra with
  | some e => if pyTruthy e then .dict (base ++ [("extra", e)]) else .dict base
  | Option.none => .dict base

/-- External collaborators of one batch run. -/
structure BatchEnv where
  fetched : List PyVal
  promptResult : Except String String
  fs : FS
  chatAnswer : String
  chatMeta : PyVal
  parsedAnswer : Except String PyVal
  ts : String
  providerType : String

/-- What `_process_common` did: the `call_tool` invocations it made, the
log object it wrote (if it got that far), and the answer it returned
(`Option.none` models the early `return None, None` paths). -/
structure CommonResult where
  calls : List (String × PyVal)
  logWritten : Option PyVal
  answer : Option String

/-- `BatchProcessor._process_common(mode, args)` (lines 113-168): fetch
records, truncate to the sample limit, load the prompt (failures are
caught and end the mode), run the vision pipeline (one concrete completion
order — order-independence is the pipeline's own theorem), bail out when
images exist on the catalog but none could be materialized, build the
messages, call the LLM, and persist the run log with the LLM metadata
under `extra.llm`. -/
def process_common (env : BatchEnv) (mode : String) (args : Args) :
    Except PyExc CommonResult :=
  match fetch_images_call args with
  | .error e => .error e
  | .ok (toolName, params) =>
      let calls := [(toolName, params)]
      let images := env.fetched
      if images.isEmpty then
        .ok { calls := calls, logWritten := Option.none,
              answer := Option.none }
      else
        let sample := images.take args.limit
        match env.promptResult with
        | .error _ =>
            .ok { calls := calls, logWritten := Option.none,
                  answer := Option.none }
        | .ok system_prompt =>
            let vision := prepare_vision_payloads_async sample
              (!args.text_only) (canonicalResults env.fs 1 sample)
            if vision.1.isEmpty && !images.isEmpty && !args.text_only then
              .ok { calls := calls, logWritten := Option.none,
                    answer := Option.none }
            else
              let _messages := build_messages system_prompt sample vision.1
                env.providerType
              let answer := env.chatAnswer
              let log := save_log mode args.source sample answer
                (some (.dict [("llm", env.chatMeta)])) env.ts
              .ok { calls := calls, logWritten := some log,
                    answer := some answer }

/-- How one `run_mode_rating` invocation ended. -/
inductive RatingOutcome where
  | noAnswer
  | jsonError (msg : String)
  | noEdits
  | raised (e : PyExc)
  | dryRunReported
  | applied
  | applyFailed (msg : String)

/-- Observable effects of one `run_mode_rating` invocation. -/
structure RatingRun where
  outcome : RatingOutcome
  calls : List (String × PyVal)
  logWritten : Option PyVal

/-- `BatchProcessor.run_mode_rating(args)` (lines 170-224).  After a
successful parse with a non-empty `edits` list, the reporting loop
evaluates `next((img for img in sample if ...))`: the name `sample` is not
bound in `run_mode_rating`, on the class, or at module scope of
`batch_processor.py` (it is a local of `_process_common`), so the first
loop iteration raises `NameError` — before the `self.dry_run` branch and
before any `apply_batch_edits` invocation is reachable.  (`dry_run` is
consequently never consulted: every path ends before the `try` block that
reads it, which is the divergence the rating-mode claims are about.) -/
def run_mode_rating (env : BatchEnv) (args : Args) (_dry_run : Bool) :
    RatingRun :=
  match process_common env "rating" args with
  | .error e => { outcome := .raised e, calls := [], logWritten := Option.none }
  | .ok common =>
      match common.answer with
      | Option.none =>
          { outcome := .noAnswer, calls := common.calls,
            logWritten := common.logWritten }
      | some answer =>
          if answer = "" then
            { outcome := .noAnswer, calls := common.calls,
              logWritten := common.logWritten }
          else
          match env.parsedAnswer with
          | .error m =>
              { outcome := .jsonError m, calls := common.calls,
                logWritten := common.logWritten }
          | .ok parsed =>
              match pyGetD parsed "edits" (.list []) with
              | .list [] =>
                  { outcome := .noEdits, calls := common.calls,
                    logWritten := common.logWritten }
              | .list (_ :: _) =>
                  { outcome := .raised (.nameError "sample"),
                    calls := common.calls, logWritten := common.logWritten }
              | v =>
                  if pyTruthy v then
                    { outcome := .raised (.typeError "edits is not iterable"),
                      calls := common.calls, logWritten := common.logWritten }
                  else
                    { outcome := .noEdits, calls := common.calls,
                      logWritten := common.logWritten }

/-! ## `append_export_result_to_log` (src/host/common.py, lines 1033-1048)

Reading and parsing the log file is abstracted to its outcome: `parsed`
is `Option.none` when `read_text`/`json.loads` raised (the `except` arm
sets `existing = None`), otherwise the parsed value. -/

/-- A filesystem path split as `pathlib` exposes it. -/
structure PyPath where
  dir : String
  stem : String
  suffix : String

/-- The bindings `existing.get("extra") or {}` resolves to in the happy
path: the existing `extra` object when present and truthy, else `{}`. -/
def extraKvsOf (kvs : List (String × PyVal)) : List (String × PyVal) :=
  match dictGet kvs "extra" with
  | some (.dict ekvs) => if ekvs.isEmpty then [] else ekvs
  | _ => []

/-- The updated log object in the happy path: `extra` (or `{}` when the
field is absent or falsy) with `export_result` stored, written back under
the `extra` key. -/
def updatedExisting (kvs : List (String × PyVal)) (exportResult : PyVal) :
    List (String × PyVal) :=
  dictSet kvs "extra"
    (.dict (dictSet (extraKvsOf kvs) "export_result" exportResult))

/-- Whether `existing.get("extra") or {}` supports item assignment: the
field is absent, falsy, or itself a dict. -/
def extraAssignable (kvs : List (String × PyVal)) : Bool :=
  match dictGet kvs "extra" with
  | Option.none => true
  | some v => !pyTruthy v || (match v with | .dict _ => true | _ => false)

/-- The fallback file `LOG_DIR / f"<stem>-export-result<suffix>"`. -/
def fallbackPath (logDir : String) (logFile : PyPath) : PyPath :=
  { dir := logDir, stem := logFile.stem ++ "-export-result",
    suffix := logFile.suffix }

/-- `append_export_result_to_log(log_file, export_result)`: when the file
parsed to a JSON object, store the result under `extra.export_result` in
that object, write it back, and return the log path — unless
`existing.get("extra") or {}` produced a truthy non-dict, in which case
the item assignment raises `TypeError` (uncaught).  Any other content goes
verbatim to the fallback file in `LOG_DIR`.  The returned pair is the path
written and the JSON object now stored there. -/
def append_export_result_to_log (logDir : String) (logFile : PyPath)
    (parsed : Option PyVal) (exportResult : PyVal) :
    Except PyExc (PyPath × PyVal) :=
  match parsed with
  | some (.dict kvs) =>
      match dictGet kvs "extra" with
      | some v =>
          if pyTruthy v then
            match v with
            | .dict _ => .ok (logFile, .dict (updatedExisting kvs exportResult))
            | _ => .error (.typeError
                "object does not support item assignment")
          else .ok (logFile, .dict (updatedExisting kvs exportResult))
      | Option.none => .ok (logFile, .dict (updatedExisting kvs exportResult))
  | _ => .ok (fallbackPath logDir logFile, exportResult)

/-- Whether the abstracted read/parse step produced a JSON object. -/
def isObjParse : Option PyVal → Bool
  | some (.dict _) => true
  | _ => false

/-! ## Concrete fixtures used by witnesses and counterexamples -/

/-- A catalog record whose file is present on the demo disk. -/
def rec1 : PyVal :=
  .dict [("id", .int 1), ("path", .str "/ph"), ("filename", .str "a.jpg"),
         ("rating", .int 1), ("colorlabels", .list [])]

/-- A second catalog record whose file is present on the demo disk. -/
def rec2 : PyVal :=
  .dict [("id", .int 2), ("path", .str "/ph"), ("filename", .str "b.jpg"),
         ("rating", .int 0), ("colorlabels", .list [.str "red"])]

/-- A catalog record whose file is absent from the demo disk. -/
def rec3 : PyVal :=
  .dict [("id", .int 3), ("path", .str "/ph"), ("filename", .str "c.jpg"),
         ("rating", .int 0), ("colorlabels", .list [])]

/-- The demo disk: `a.jpg` and `b.jpg` encode, everything else is absent. -/
def fsDemo : FS := fun p =>
  if p = "/ph/a.jpg" then .readable "QUFB" "data:image/jpeg;base64,QUFB"
  else if p = "/ph/b.jpg" then .readable "QkJC" "data:image/jpeg;base64,QkJC"
  else .missing

/-- A prepared vision payload for the `build_messages` counterexample. -/
def vimg1 : VisionImage :=
  { meta := rec1, path := "/ph/a.jpg", b64 := "QUFB",
    data_url := "data:image/jpeg;base64,QUFB" }

/-- The record of spec scenario C (id 5, about to be rated 4). -/
def recC7 : PyVal :=
  .dict [("id", .int 5), ("path", .str "/ph"), ("filename", .str "e.jpg"),
         ("rating", .int 2), ("colorlabels", .list [])]

/-- Arguments of a plain `--source all` run. -/
def argsC7 : Args :=
  { source := "all", min_rating := 1, only_raw := false,
    path_contains := Option.none, tag := Option.none,
    collection := Option.none, limit := 10, text_only := false,
    prompt_variant := "basico" }

/-- The external world of spec scenario C: one fetched record whose file
encodes, a loaded prompt, and a model answer that parses to one edit
`id 5 → rating 4`. -/
def envC7 : BatchEnv :=
  { fetched := [recC7],
    promptResult := .ok "PROMPT",
    fs := fun p =>
      if p = "/ph/e.jpg" then .readable "RUVF" "data:image/jpeg;base64,RUVF"
      else .missing,
    chatAnswer := "\x7b\"edits\": [\x7b\"id\": 5, \"rating\": 4\x7d]\x7d",
    chatMeta := .dict [("latency_ms", .int 10)],
    parsedAnswer := .ok (.dict [("edits",
      .list [.dict [("id", .int 5), ("rating", .int 4)]])]),
    ts := "20260101-000000",
    providerType := "ollama" }

/-! ## Helper lemmas: strings and substring search -/

theorem data_append (a b : String) : (a ++ b).data = a.data ++ b.data := rfl

theorem isPrefixOf_self_append (n rest : List Char) :
    n.isPrefixOf (n ++ rest) = true := by
  induction n with
  | nil => simp [List.isPrefixOf]
  | cons c t ih => simp [List.isPrefixOf, ih]

theorem subList_nil_left (hay : List Char) : subList [] hay = true := by
  cases hay <;> simp [subList, List.isPrefixOf]

theorem subList_self_append (n rest : List Char) :
    subList n (n ++ rest) = true := by
  cases n with
  | nil => simpa using subList_nil_left rest
  | cons c t =>
      show subList (c :: t) ((c :: t) ++ rest) = true
      simp [subList, isPrefixOf_self_append]

theorem subList_cons_right (n : List Char) (c : Char) (t : List Char)
    (h : subList n t = true) : subList n (c :: t) = true := by
  simp [subList, h]

theorem subList_append_left (pre n h : List Char)
    (hs : subList n h = true) : subList n (pre ++ h) = true := by
  induction pre with
  | nil => simpa using hs
  | cons c t ih => exact subList_cons_right n c (t ++ h) ih

theorem subList_surrounded (pre n post : List Char) :
    subList n (pre ++ n ++ post) = true := by
  rw [List.append_assoc]
  exact subList_append_left pre n (n ++ post) (subList_self_append n post)

theorem eq_nil_of_subList_nil (n : List Char) (h : subList n [] = true) :
    n = [] := by
  cases n with
  | nil => rfl
  | cons c t => simp [subList, List.isPrefixOf] at h

theorem subList_pyJoin (sep : String) (xs : List String) (x : String)
    (hmem : x ∈ xs) : subList x.data (pyJoin sep xs).data = true := by
  induction xs with
  | nil => cases hmem
  | cons y ys ih =>
      cases ys with
      | nil =>
          rcases List.mem_singleton.mp hmem with rfl
          simpa using subList_self_append x.data []
      | cons z zs =>
          rcases List.mem_cons.mp hmem with rfl | htail
          · show subList x.data (x ++ sep ++ pyJoin sep (z :: zs)).data = true
            rw [data_append, data_append]
            rw [List.append_assoc]
            exact subList_self_append x.data _
          · show subList x.data (y ++ sep ++ pyJoin sep (z :: zs)).data = true
            rw [data_append]
            exact subList_append_left (y ++ sep).data x.data _ (ih htail)

theorem stripped_line_in_timeoutMsg (timeoutRepr : String)
    (lines : List String) (l : String) (hmem : l ∈ lines) :
    subList (pyStrip l).data (timeoutMsg timeoutRepr lines).data = true := by
  have hjoin : subList (pyStrip l).data (drain_stderr lines).data = true := by
    exact subList_pyJoin " | " (lines.map pyStrip) (pyStrip l)
      (List.mem_map_of_mem pyStrip hmem)
  unfold timeoutMsg stderrExtra
  by_cases hempty : drain_stderr lines = ""
  · rw [hempty] at hjoin
    have hnil : (pyStrip l).data = [] := eq_nil_of_subList_nil _ hjoin
    rw [hnil]
    simp [subList_nil_left]
  · rw [if_neg hempty, data_append, data_append]
    exact subList_append_left _ _ _
      (subList_append_left _ _ _ hjoin)

/-! ## Helper lemmas: dict operations -/

theorem dictGet_dictSet (kvs : List (String × PyVal)) (k : String)
    (v : PyVal) : dictGet (dictSet kvs k v) k = some v := by
  induction kvs with
  | nil => simp [dictSet, dictGet]
  | cons p rest ih =>
      by_cases h : p.1 = k
      · simp [dictSet, dictGet, h]
      · simp [dictSet, dictGet, h, ih]

/-! ## Helper lemmas: the key-sorted reconstruction of pipeline results -/

theorem insertByKey_perm (x : Nat × Option VisionImage × Option String)
    (l : List (Nat × Option VisionImage × Option String)) :
    (insertByKey x l).Perm (x :: l) := by
  induction l with
  | nil => exact List.Perm.refl _
  | cons y ys ih =>
      by_cases h : x.1 ≤ y.1
      · simp [insertByKey, h]
      · simp only [insertByKey, if_neg h]
        exact (ih.cons y).trans (List.Perm.swap x y ys)

theorem sortByKey_perm (l : List (Nat × Option VisionImage × Option String)) :
    (sortByKey l).Perm l := by
  induction l with
  | nil => exact List.Perm.refl _
  | cons x xs ih => exact (insertByKey_perm x (sortByKey xs)).trans (ih.cons x)

theorem insertByKey_pairwise (x : Nat × Option VisionImage × Option String)
    (l : List (Nat × Option VisionImage × Option String))
    (h : l.Pairwise (fun a b => a.1 ≤ b.1)) :
    (insertByKey x l).Pairwise (fun a b => a.1 ≤ b.1) := by
  induction l with
  | nil => simp [insertByKey]
  | cons y ys ih =>
      rcases List.pairwise_cons.mp h with ⟨hy, hys⟩
      by_cases hle : x.1 ≤ y.1
      · simp only [insertByKey, if_pos hle]
        refine List.pairwise_cons.mpr ⟨?_, h⟩
        intro z hz
        rcases List.mem_cons.mp hz with rfl | hz2
        · exact hle
        · exact le_trans hle (hy z hz2)
      · simp only [insertByKey, if_neg hle]
        refine List.pairwise_cons.mpr ⟨?_, ih hys⟩
        intro z hz
        rcases List.mem_cons.mp ((insertByKey_perm x ys).mem_iff.mp hz)
          with rfl | hz2
        · exact le_of_lt (Nat.lt_of_not_le hle)
        · exact hy z hz2

theorem sortByKey_pairwise
    (l : List (Nat × Option VisionImage × Option String)) :
    (sortByKey l).Pairwise (fun a b => a.1 ≤ b.1) := by
  induction l with
  | nil => simp [sortByKey]
  | cons x xs ih => exact insertByKey_pairwise x (sortByKey xs) ih

theorem eq_of_perm_keySorted :
    ∀ (l₁ l₂ : List (Nat × Option VisionImage × Option String)),
    l₁.Perm l₂ → l₁.Pairwise (fun a b => a.1 ≤ b.1) →
    l₂.Pairwise (fun a b => a.1 ≤ b.1) → (l₁.map Prod.fst).Nodup → l₁ = l₂
  | [], l₂, hp, _, _, _ => hp.nil_eq
  | a :: t₁, l₂, hp, h₁, h₂, hnd => by
      cases l₂ with
      | nil => exact absurd hp.symm.nil_eq (by simp)
      | cons b t₂ =>
          rw [List.map_cons] at hnd
          rcases List.nodup_cons.mp hnd with ⟨hnotin, hndt⟩
          rcases List.pairwise_cons.mp h₁ with ⟨ha, ht₁⟩
          rcases List.pairwise_cons.mp h₂ with ⟨hb, ht₂⟩
          have hab : a = b := by
            have hamem : a ∈ b :: t₂ := hp.mem_iff.mp (List.mem_cons_self a t₁)
            rcases List.mem_cons.mp hamem with h | hat₂
            · exact h
            · have hbmem : b ∈ a :: t₁ :=
                hp.symm.mem_iff.mp (List.mem_cons_self b t₂)
              rcases List.mem_cons.mp hbmem with h | hbt₁
              · exact h.symm
              · exfalso
                have hkey : a.1 = b.1 := le_antisymm (ha b hbt₁) (hb a hat₂)
                exact hnotin (hkey ▸ List.mem_map_of_mem Prod.fst hbt₁)
          subst hab
          have htperm : t₁.Perm t₂ := hp.cons_inv
          rw [eq_of_perm_keySorted t₁ t₂ htperm ht₁ ht₂ hndt]

theorem canonical_key_ge (fs : FS) :
    ∀ (k : Nat) (imgs : List PyVal) (p : Nat × Option VisionImage ×
      Option String), p ∈ canonicalResults fs k imgs → k ≤ p.1
  | _, [], _, hp => absurd hp (by simp [canonicalResults])
  | k, img :: rest, p, hp => by
      rcases List.mem_cons.mp hp with rfl | htail
      · exact Nat.le_refl k
      · exact Nat.le_of_succ_le (canonical_key_ge fs (k + 1) rest p htail)

theorem canonical_pairwise (fs : FS) :
    ∀ (k : Nat) (imgs : List PyVal),
    (canonicalResults fs k imgs).Pairwise (fun a b => a.1 ≤ b.1)
  | _, [] => by simp [canonicalResults]
  | k, img :: rest => by
      refine List.pairwise_cons.mpr ⟨?_, canonical_pairwise fs (k + 1) rest⟩
      intro p hp
      exact Nat.le_of_succ_le (canonical_key_ge fs (k + 1) rest p hp)

theorem canonical_keys_nodup (fs : FS) :
    ∀ (k : Nat) (imgs : List PyVal),
    ((canonicalResults fs k imgs).map Prod.fst).Nodup
  | _, [] => by simp [canonicalResults]
  | k, img :: rest => by
      rw [canonicalResults, List.map_cons]
      refine List.nodup_cons.mpr ⟨?_, canonical_keys_nodup fs (k + 1) rest⟩
      intro hmem
      rcases List.mem_map.mp hmem with ⟨p, hp, hkey⟩
      have := canonical_key_ge fs (k + 1) rest p hp
      have hk : (process_single_image fs k img).1 = k := rfl
      omega

theorem sortByKey_eq_canonical (fs : FS) (k : Nat) (imgs : List PyVal)
    (completed : List (Nat × Option VisionImage × Option String))
    (hperm : completed.Perm (canonicalResults fs k imgs)) :
    sortByKey completed = canonicalResults fs k imgs := by
  have hp : (sortByKey completed).Perm (canonicalResults fs k imgs) :=
    (sortByKey_perm completed).trans hperm
  refine eq_of_perm_keySorted _ _ hp (sortByKey_pairwise completed)
    (canonical_pairwise fs k imgs) ?_
  have hkeysperm : ((sortByKey completed).map Prod.fst).Perm
      ((canonicalResults fs k imgs).map Prod.fst) := hp.map Prod.fst
  exact hkeysperm.nodup_iff.mpr (canonical_keys_nodup fs k imgs)

theorem procResult_cases (fs : FS) (img : PyVal) :
    (∃ p, procResult fs img = (some p, Option.none) ∧ p.meta = img ∧
      encodeOk fs img = true) ∨
    (∃ e, procResult fs img = (Option.none, some e) ∧
      encodeOk fs img = false) := by
  unfold procResult encodeOk
  rcases h : encode_image_to_base64 fs (recordImagePath img) with e | v
  · cases e <;> simp [h]
  · rcases v with ⟨b64, dataUrl⟩
    simp [h]

theorem gatherLoop_canonical (fs : FS) :
    ∀ (imgs : List PyVal) (k : Nat) (ps : List VisionImage)
      (es : List String),
    gatherLoop (ps, es) (canonicalResults fs k imgs)
      = (ps ++ paysOf fs imgs, es ++ errsOf fs imgs)
  | [], _, ps, es => by simp [canonicalResults, gatherLoop, paysOf, errsOf]
  | img :: rest, k, ps, es => by
      rw [canonicalResults]
      rcases procResult_cases fs img with ⟨p, hpr, _, _⟩ | ⟨e, hpr, _⟩
      · show gatherLoop (ps, es)
          ((k, procResult fs img) :: canonicalResults fs (k + 1) rest) = _
        rw [hpr]
        show gatherLoop (ps ++ [p], es) (canonicalResults fs (k + 1) rest) = _
        rw [gatherLoop_canonical fs rest (k + 1) (ps ++ [p]) es]
        simp [paysOf, errsOf, List.filterMap_cons, hpr]
      · show gatherLoop (ps, es)
          ((k, procResult fs img) :: canonicalResults fs (k + 1) rest) = _
        rw [hpr]
        show gatherLoop (ps, es ++ [e]) (canonicalResults fs (k + 1) rest) = _
        rw [gatherLoop_canonical fs rest (k + 1) ps (es ++ [e])]
        simp [paysOf, errsOf, List.filterMap_cons, hpr]

theorem paysOf_map_meta (fs : FS) (l : List PyVal) :
    (paysOf fs l).map VisionImage.meta
      = l.filter (fun img => encodeOk fs img) := by
  induction l with
  | nil => simp [paysOf]
  | cons img rest ih =>
      rcases procResult_cases fs img with ⟨p, hpr, hmeta, hok⟩ | ⟨e, hpr, hok⟩
      · simp [paysOf, List.filterMap_cons, hpr, hok, hmeta,
          List.filter_cons] at ih ⊢
        exact ih
      · simp [paysOf, List.filterMap_cons, hpr, hok, List.filter_cons]
          at ih ⊢
        exact ih

theorem prepare_gather (fs : FS) (imgs : List PyVal)
    (completed : List (Nat × Option VisionImage × Option String))
    (hperm : completed.Perm (canonicalResults fs 1 imgs)) :
    prepare_vision_payloads_async imgs true completed
      = (paysOf fs imgs, errsOf fs imgs) := by
  unfold prepare_vision_payloads_async
  by_cases hempty : imgs.isEmpty
  · rcases List.isEmpty_iff.mp hempty with rfl
    simp [paysOf, errsOf]
  · simp only [hempty, Bool.not_true, if_neg]
    rw [sortByKey_eq_canonical fs 1 imgs completed hperm]
    rw [gatherLoop_canonical fs imgs 1 [] []]
    simp

/-! ## Claim theorems -/

/-- C1.  For every input record list with `attach_images = true` and every
order in which the worker pool completes the submitted units (`completed`
is any permutation of the per-record results; the pool width `max_workers`
only chooses among these orders), the payload list returned by
`prepare_vision_payloads_async` lists exactly the successfully encoded
input records, in the original input order: mapping each payload to its
source record yields the input list filtered to the records that encode. -/
theorem prepare_vision_payloads_async_preserves_order (fs : FS)
    (images : List PyVal)
    (completed : List (Nat × Option VisionImage × Option String))
    (hperm : completed.Perm (canonicalResults fs 1 images)) :
    ((prepare_vision_payloads_async images true completed).1.map
        VisionImage.meta)
      = images.filter (fun img => encodeOk fs img) := by
  rw [prepare_gather fs images completed hperm]
  exact paysOf_map_meta fs images

/-- C1 witness: three records, the middle one missing from the demo disk,
with the pool finishing in exactly reversed order; the returned payloads
are the two surviving records in input order. -/
theorem prepare_vision_payloads_async_preserves_order_witness :
    ((canonicalResults fsDemo 1 [rec1, rec3, rec2]).reverse.Perm
        (canonicalResults fsDemo 1 [rec1, rec3, rec2]))
    ∧ ((prepare_vision_payloads_async [rec1, rec3, rec2] true
          ((canonicalResults fsDemo 1 [rec1, rec3, rec2]).reverse)).1.map
            VisionImage.meta)
        = [rec1, rec3, rec2].filter (fun img => encodeOk fsDemo img) :=
  ⟨List.reverse_perm _,
   prepare_vision_payloads_async_preserves_order fsDemo [rec1, rec3, rec2]
     ((canonicalResults fsDemo 1 [rec1, rec3, rec2]).reverse)
     (List.reverse_perm _)⟩

/-- C6.  With `attach_images = true`, a record whose resolved file is
missing contributes exactly one entry to the errors list — the
`Arquivo não encontrado` message tagged with the offending path — and no
entry to the payloads list, and the remaining records before and after it
are processed exactly as they would be on their own, for every completion
order of the worker pool. -/
theorem missing_record_one_error_zero_payloads (fs : FS)
    (pre post : List PyVal) (r : PyVal)
    (completed : List (Nat × Option VisionImage × Option String))
    (hperm : completed.Perm (canonicalResults fs 1 (pre ++ r :: post)))
    (hmiss : fs (recordImagePath r) = FileState.missing) :
    (prepare_vision_payloads_async (pre ++ r :: post) true completed).2
      = errsOf fs pre ++ ("Arquivo não encontrado: " ++ recordImagePath r)
          :: errsOf fs post
    ∧ (prepare_vision_payloads_async (pre ++ r :: post) true completed).1
      = paysOf fs pre ++ paysOf fs post := by
  rw [prepare_gather fs (pre ++ r :: post) completed hperm]
  have hproc : procResult fs r =
      (Option.none, some ("Arquivo não encontrado: " ++ recordImagePath r)) := by
    simp [procResult, encode_image_to_base64, hmiss]
  constructor
  · unfold errsOf
    rw [List.filterMap_append, List.filterMap_cons, hproc]
  · unfold paysOf
    rw [List.filterMap_append, List.filterMap_cons, hproc]

/-- C6 witness: the record `rec3` (whose file `/ph/c.jpg` is absent)
between two present records, pool completing in reversed order. -/
theorem missing_record_one_error_zero_payloads_witness :
    ((canonicalResults fsDemo 1 [rec1, rec3, rec2]).reverse.Perm
        (canonicalResults fsDemo 1 ([rec1] ++ rec3 :: [rec2])))
    ∧ fsDemo (recordImagePath rec3) = FileState.missing
    ∧ ((prepare_vision_payloads_async ([rec1] ++ rec3 :: [rec2]) true
          ((canonicalResults fsDemo 1 [rec1, rec3, rec2]).reverse)).2
        = errsOf fsDemo [rec1]
            ++ ("Arquivo não encontrado: " ++ recordImagePath rec3)
            :: errsOf fsDemo [rec2]
      ∧ (prepare_vision_payloads_async ([rec1] ++ rec3 :: [rec2]) true
          ((canonicalResults fsDemo 1 [rec1, rec3, rec2]).reverse)).1
        = paysOf fsDemo [rec1] ++ paysOf fsDemo [rec2]) :=
  ⟨List.reverse_perm _, by decide,
   missing_record_one_error_zero_payloads fsDemo [rec1] [rec2] rec3
     ((canonicalResults fsDemo 1 [rec1, rec3, rec2]).reverse)
     (List.reverse_perm _) (by decide)⟩

/-- C2 counterexample.  The stderr line `"  x"` is available at the moment
of the timeout, yet the raised message carries only its stripped form:
`_drain_stderr` strips every line and joins with `" | "`, so the line is
not included verbatim — the two leading spaces are gone and `"  x"` does
not occur anywhere in the message. -/
theorem request_timeout_strips_stderr_lines :
    (request "30.0" freshClient
        { stdoutReady := false, stdoutLine := Option.none,
          stderrLines := ["  x"] } "tools/list" Option.none).2.outcome
      = .error (.timeoutError
          "Servidor MCP não respondeu em 30.0s (timeout) | stderr: x")
    ∧ strContains
        "Servidor MCP não respondeu em 30.0s (timeout) | stderr: x" "  x"
      = false :=
  ⟨rfl, by decide⟩

/-- C2 amended.  When `select` reports no stdout data within the response
timeout, `request` raises a `TimeoutError` (no other error kind), and
every line available on the diagnostic stream at that moment is included
in the error message after stripping surrounding whitespace (lines are
joined with `" | "` behind a `" | stderr: "` marker). -/
theorem request_timeout_error_includes_stripped_stderr
    (timeoutRepr : String) (st : ClientState) (line : Option PyVal)
    (errLines : List String) (method : String) (params : Option PyVal) :
    (request timeoutRepr st
        { stdoutReady := false, stdoutLine := line,
          stderrLines := errLines } method params).2.outcome
      = .error (.timeoutError (timeoutMsg timeoutRepr errLines))
    ∧ errLines.all (fun l =>
        subList (pyStrip l).data (timeoutMsg timeoutRepr errLines).data)
      = true := by
  constructor
  · rfl
  · rw [List.all_eq_true]
    intro l hl
    exact stripped_line_in_timeoutMsg timeoutRepr errLines l hl

/-- C3 counterexample.  `request` signals EOF on the worker's stdout with
a plain `RuntimeError`, the same exception class it uses when the worker
replies with a structured `error` payload: a reply whose error payload is
the string `"Servidor MCP não respondeu (stdout vazio)"` produces an
exception literally identical to the EOF one, so the EOF failure is not a
distinguishable TransportClosed error kind. -/
theorem request_eof_error_equals_rpc_error :
    (request "30.0" freshClient
        { stdoutReady := true, stdoutLine := Option.none,
          stderrLines := [] } "initialize" Option.none).2.outcome
      = .error (.runtimeError (.str "Servidor MCP não respondeu (stdout vazio)"))
    ∧ (request "30.0" freshClient
        { stdoutReady := true,
          stdoutLine := some (.dict [("jsonrpc", .str "2.0"),
            ("id", .str "1"),
            ("error", .str "Servidor MCP não respondeu (stdout vazio)")]),
          stderrLines := [] } "initialize" Option.none).2.outcome
      = .error (.runtimeError (.str "Servidor MCP não respondeu (stdout vazio)")) :=
  ⟨rfl, rfl⟩

/-- C3 amended.  When the worker's stdout yields EOF before a reply,
`request` raises a `RuntimeError` whose message marks the empty stdout
(`"Servidor MCP não respondeu (stdout vazio)"` plus drained diagnostics).
That exception differs from the `TimeoutError` of the timeout path, but it
is Python's generic `RuntimeError` — the same class raised for a
structured error reply — not a dedicated TransportClosed kind. -/
theorem request_eof_raises_runtime_error (timeoutRepr : String)
    (st : ClientState) (errLines : List String) (method : String)
    (params : Option PyVal) :
    (request timeoutRepr st
        { stdoutReady := true, stdoutLine := Option.none,
          stderrLines := errLines } method params).2.outcome
      = .error (.runtimeError (.str (emptyStdoutMsg errLines)))
    ∧ (∀ m : String,
        PyExc.runtimeError (.str (emptyStdoutMsg errLines))
          ≠ PyExc.timeoutError m) :=
  ⟨rfl, fun _ h => PyExc.noConfusion h⟩

/-- C4 counterexample.  The very first request of a fresh client carries
the JSON string `"1"` as its correlation id — `_next_id` returns
`str(self.msg_id)` — and a JSON string is not an integer, so the
serialized id is not the integer 1 the claim requires. -/
theorem request_id_is_string_not_integer :
    pyGetD (request "30.0" freshClient
        { stdoutReady := true,
          stdoutLine := some (.dict [("jsonrpc", .str "2.0"),
            ("id", .str "1"), ("result", .dict [])]),
          stderrLines := [] } "initialize" Option.none).2.sent "id" .pynone
      = .str "1"
    ∧ (∀ n : Int, (PyVal.str "1") ≠ PyVal.int n) :=
  ⟨rfl, fun _ h => PyVal.noConfusion h⟩

/-- C4 amended.  Each call to `request` on a transport instance bumps
`msg_id` by exactly one and serializes the new value as its decimal string
(`"1"` on the first call of a fresh client, since `msg_id` starts at 0):
numerically the ids increment strictly by one per call starting at 1, but
the serialized request carries them as JSON strings, not integers. -/
theorem request_id_increments_per_call (timeoutRepr : String)
    (st : ClientState) (ws : StreamSnapshot) (method : String)
    (params : Option PyVal) :
    pyGetD (request timeoutRepr st ws method params).2.sent "id" .pynone
      = .str (toString (st.msgId + 1))
    ∧ (request timeoutRepr st ws method params).1.msgId = st.msgId + 1
    ∧ freshClient.msgId = 0 := by
  rcases ws with ⟨ready, line, errs⟩
  cases ready
  · exact ⟨rfl, rfl, rfl⟩
  · cases line with
    | none => exact ⟨rfl, rfl, rfl⟩
    | some resp =>
        cases h : respError resp with
        | none =>
            refine ⟨?_, ?_, rfl⟩ <;>
              simp [request, next_id, buildRequest, pyGetD, dictGet, h]
        | some e =>
            refine ⟨?_, ?_, rfl⟩ <;>
              simp [request, next_id, buildRequest, pyGetD, dictGet, h]

/-- C5.  After `close()` on a transport that holds a worker handle, none
of the worker's three stream descriptors remains open, the handle is
dropped, and a second `close()` is a no-op returning the state unchanged
(`close` is a total function — it raises nothing — and idempotent). -/
theorem close_closes_streams_and_is_idempotent (s : WorkerStreams)
    (running : Bool) :
    (close { hasProc := true, streams := s,
             procRunning := running }).streams.stdinOpen = false
    ∧ (close { hasProc := true, streams := s,
               procRunning := running }).streams.stdoutOpen = false
    ∧ (close { hasProc := true, streams := s,
               procRunning := running }).streams.stderrOpen = false
    ∧ (close { hasProc := true, streams := s,
               procRunning := running }).hasProc = false
    ∧ close (close { hasProc := true, streams := s, procRunning := running })
        = close { hasProc := true, streams := s, procRunning := running } := by
  refine ⟨rfl, rfl, rfl, rfl, ?_⟩
  simp [close, closeStreams, terminateWorker]

/-- C7 (code bug).  In dry-run rating mode with a model answer parsing to
the single edit `id 5 → rating 4` (spec scenario C), `run_mode_rating`
never invokes `apply_batch_edits` and the persisted run log carries the
raw model answer with only the LLM metadata under `extra` — but not
because the dry-run branch ran: the edit-reporting loop evaluates the name
`sample`, which is unbound in `run_mode_rating`'s scope, so the mode
crashes with `NameError` before the `self.dry_run` check is ever reached
(the same happens with `dry_run = False`, so the mutation call is dead
code). -/
theorem run_mode_rating_dry_run_crashes_before_dry_run_branch :
    (run_mode_rating envC7 argsC7 true).outcome
      = .raised (.nameError "sample")
    ∧ (run_mode_rating envC7 argsC7 true).calls
      = [("list_collection", .dict [("min_rating", .int 1),
                                    ("only_raw", .bool false)])]
    ∧ ((run_mode_rating envC7 argsC7 true).calls.all
        (fun c => !(c.1 == "apply_batch_edits"))) = true
    ∧ (run_mode_rating envC7 argsC7 true).logWritten
      = some (.dict [("timestamp", .str "20260101-000000"),
          ("mode", .str "rating"), ("source", .str "all"),
          ("images_sample", .list [recC7]),
          ("model_answer",
           .str "\x7b\"edits\": [\x7b\"id\": 5, \"rating\": 4\x7d]\x7d"),
          ("extra", .dict [("llm", .dict [("latency_ms", .int 10)])])])
    ∧ (run_mode_rating envC7 argsC7 false).outcome
      = .raised (.nameError "sample") :=
  ⟨rfl, rfl, rfl, rfl, rfl⟩

/-- C8 counterexample.  With one attached vision image, `build_messages`
returns three messages, not the two (system + one per image) the claim
allows: a final user message with a fixed "return only JSON" instruction
is appended after the image messages. -/
theorem build_messages_appends_extra_instruction :
    (build_messages "SYS" [] [vimg1] "ollama").length = 3
    ∧ ¬((build_messages "SYS" [] [vimg1] "ollama").length
        = 1 + [vimg1].length)
    ∧ (build_messages "SYS" [] [vimg1] "ollama").getLast?
      = some finalInstructionMessage := by
  refine ⟨rfl, ?_, rfl⟩
  intro h
  have h3 : (build_messages "SYS" [] [vimg1] "ollama").length = 3 := rfl
  simp only [List.length_singleton] at h
  omega

/-- C8 amended.  `build_messages` returns exactly the system message plus
the text fallback when the vision-image list is empty; otherwise the
system message, one user message per vision image (in the shape selected
by the provider-type flag), and one final fixed user instruction — so the
message count is `n + 2` for `n ≥ 1` images, not `n + 1`. -/
theorem build_messages_shape (sp : String) (sample : List PyVal)
    (pt : String) :
    (build_messages sp sample [] pt
      = [systemMessage sp,
         .dict [("role", .str "user"),
                ("content", .str (fallback_user_prompt sample))]])
    ∧ (∀ (v : VisionImage) (vs : List VisionImage),
        build_messages sp sample (v :: vs) pt
          = systemMessage sp :: (v :: vs).map (perImageMessage pt)
              ++ [finalInstructionMessage])
    ∧ (∀ (v : VisionImage) (vs : List VisionImage),
        (build_messages sp sample (v :: vs) pt).length
          = (v :: vs).length + 2) := by
  refine ⟨rfl, fun v vs => rfl, fun v vs => ?_⟩
  simp [build_messages]

/-- C9.  Whenever an AppImage target is detected but the mount attempt
fails — the mount helper raised, or it produced no mount-point line —
`_setup_appimage_env` falls through to `self.env = env`: the transport's
environment is exactly the caller-supplied mapping, and (the embedding
being total, mirroring the `try/except Exception` around the whole block)
construction proceeds without raising. -/
theorem setup_appimage_env_failure_keeps_caller_env
    (command : List String) (env : Option EnvMap)
    (appimagePath : Option String) (osEnviron : EnvMap)
    (mount : MountOutcome) (target : String)
    (hdet : detectAppImage command appimagePath = some target)
    (hfail : mountFailed mount = true) :
    (setup_appimage_env command env appimagePath osEnviron mount).env
      = env := by
  cases mount with
  | raised msg => simp [setup_appimage_env, hdet]
  | noMountLine => simp [setup_appimage_env, hdet]
  | mounted info => simp [mountFailed] at hfail

/-- C9 witness: an explicit bundle path whose mount helper raises; the
caller's environment comes back unchanged. -/
theorem setup_appimage_env_failure_keeps_caller_env_witness :
    detectAppImage ["lua", "/srv/dt_mcp_server.lua"]
        (some "/opt/Darktable.AppImage") = some "/opt/Darktable.AppImage"
    ∧ mountFailed (.raised "fuse mount failed") = true
    ∧ (setup_appimage_env ["lua", "/srv/dt_mcp_server.lua"]
        (some [("PATH", "/usr/bin")]) (some "/opt/Darktable.AppImage") []
        (.raised "fuse mount failed")).env = some [("PATH", "/usr/bin")] :=
  ⟨rfl, rfl,
   setup_appimage_env_failure_keeps_caller_env
     ["lua", "/srv/dt_mcp_server.lua"] (some [("PATH", "/usr/bin")])
     (some "/opt/Darktable.AppImage") [] (.raised "fuse mount failed")
     "/opt/Darktable.AppImage" rfl rfl⟩

/-- C10 counterexample.  `append_export_result_to_log` can raise: when the
log file parses to a JSON object whose `extra` field is a truthy
non-object (here the string `"note"`), `existing.get("extra") or {}`
yields that string and the item assignment `extra["export_result"] = ...`
raises an uncaught `TypeError`, so the function neither returns a path nor
preserves the export result. -/
theorem append_export_result_raises_on_string_extra :
    append_export_result_to_log "/logs"
        { dir := "/logs", stem := "batch-export-20260101", suffix := ".json" }
        (some (.dict [("extra", .str "note")]))
        (.dict [("exported", .int 3)])
      = .error (.typeError "object does not support item assignment") :=
  rfl

/-- C10 amended.  `append_export_result_to_log` never raises and never
loses the export result provided that, when the log file's content parses
as a JSON object, its `extra` field is absent, falsy, or itself an object:
in that case the result is stored under `extra.export_result` in the same
file and the log path is returned; for unreadable or non-object content
the result is written verbatim to the distinct fallback file
`<stem>-export-result<suffix>` in the log directory and that path is
returned.  (A parsed object with a truthy non-object `extra` instead
raises `TypeError`, per the counterexample.) -/
theorem append_export_result_characterization (logDir : String)
    (logFile : PyPath) (res : PyVal) :
    (∀ kvs, extraAssignable kvs = true →
      append_export_result_to_log logDir logFile (some (.dict kvs)) res
          = .ok (logFile, .dict (updatedExisting kvs res))
        ∧ pyGetD (pyGetD (.dict (updatedExisting kvs res)) "extra" .pynone)
            "export_result" .pynone = res)
    ∧ (∀ parsed : Option PyVal, isObjParse parsed = false →
        append_export_result_to_log logDir logFile parsed res
          = .ok (fallbackPath logDir logFile, res))
    ∧ (fallbackPath logDir logFile).stem ≠ logFile.stem := by
  refine ⟨?_, ?_, ?_⟩
  · intro kvs hassign
    have hget : pyGetD (pyGetD (.dict (updatedExisting kvs res)) "extra"
        .pynone) "export_result" .pynone = res := by
      have h1 : pyGetD (.dict (updatedExisting kvs res)) "extra" .pynone
          = .dict (dictSet (extraKvsOf kvs) "export_result" res) := by
        simp [pyGetD, updatedExisting, dictGet_dictSet]
      rw [h1]
      simp [pyGetD, dictGet_dictSet]
    refine ⟨?_, hget⟩
    unfold append_export_result_to_log
    unfold extraAssignable at hassign
    cases hv : dictGet kvs "extra" with
    | none => simp [hv]
    | some v =>
        rw [hv] at hassign
        cases v <;> simp_all
  · intro parsed hobj
    cases parsed with
    | none => rfl
    | some v => cases v <;> simp_all [isObjParse, append_export_result_to_log]
  · intro h
    have hlen : (fallbackPath logDir logFile).stem.length
        = logFile.stem.length + 14 := by
      have h14 : "-export-result".length = 14 := rfl
      simp [fallbackPath, String.length_append, h14]
    rw [h] at hlen
    omega

/-- C10 witness: a well-formed log object without an `extra` field goes
through the in-place path, and an unparseable file goes to the fallback. -/
theorem append_export_result_characterization_witness :
    (extraAssignable [("timestamp", .str "t")] = true
      ∧ (append_export_result_to_log "/logs"
            { dir := "/logs", stem := "batch-rating-20260101",
              suffix := ".json" }
            (some (.dict [("timestamp", .str "t")]))
            (.dict [("exported", .int 2)])
          = .ok ({ dir := "/logs", stem := "batch-rating-20260101",
                   suffix := ".json" },
              .dict (updatedExisting [("timestamp", .str "t")]
                (.dict [("exported", .int 2)])))
        ∧ pyGetD (pyGetD (.dict (updatedExisting [("timestamp", .str "t")]
              (.dict [("exported", .int 2)]))) "extra" .pynone)
            "export_result" .pynone = .dict [("exported", .int 2)]))
    ∧ (isObjParse Option.none = false
      ∧ append_export_result_to_log "/logs"
            { dir := "/logs", stem := "batch-rating-20260101",
              suffix := ".json" }
            Option.none (.dict [("exported", .int 2)])
          = .ok (fallbackPath "/logs"
              { dir := "/logs", stem := "batch-rating-20260101",
                suffix := ".json" }, .dict [("exported", .int 2)])) :=
  ⟨⟨rfl, (append_export_result_characterization "/logs"
      { dir := "/logs", stem := "batch-rating-20260101", suffix := ".json" }
      (.dict [("exported", .int 2)])).1 [("timestamp", .str "t")] rfl⟩,
   ⟨rfl, (append_export_result_characterization "/logs"
      { dir := "/logs", stem := "batch-rating-20260101", suffix := ".json" }
      (.dict [("exported", .int 2)])).2.1 Option.none rfl⟩⟩
